import Mathlib

/-!
Verification development for the atomic-swap engine (Go sources under the
`athanorlabs/atomic-swap` tree).  The definitions below are shallow embeddings
of the corresponding Go functions; machine integers are modelled as `Nat`/`Int`
and byte strings as `List Nat`.  External library collaborators (JSON codec,
SHA3, validator tags) are modelled at the boundary described in the project
specification; each such modelling point is marked in its doc comment.
-/

set_option autoImplicit false

namespace AtomicSwap

/-- A 32-byte hash (`common/types.Hash`, an alias of `ethcommon.Hash`),
modelled as a list of byte values of length 32. -/
def Hash := { l : List Nat // l.length = 32 }

instance : DecidableEq Hash := fun a b =>
  match Subtype.instDecidableEq a b with
  | isTrue h => isTrue h
  | isFalse h => isFalse h

/-- Source `EmptyHash`: the all-zero hash. -/
def emptyHash : Hash := ⟨List.replicate 32 0, by simp⟩

/-- Source `IsHashZero` from `common/types/hash.go`. -/
def isHashZero (h : Hash) : Bool := h = emptyHash

/-- Value of a single hex digit, mirroring `fromHexChar` in Go's
`encoding/hex` (0-9, a-f, A-F accepted). -/
def hexDigitVal : Char → Option Nat
  | c =>
    if '0' ≤ c ∧ c ≤ '9' then some (c.toNat - '0'.toNat)
    else if 'a' ≤ c ∧ c ≤ 'f' then some (c.toNat - 'a'.toNat + 10)
    else if 'A' ≤ c ∧ c ≤ 'F' then some (c.toNat - 'A'.toNat + 10)
    else none

/-- Model of `hex.DecodeString` over a character list: consumes hex digits two at a
time; any non-hex character or an odd number of characters is an error. -/
def hexDecodeChars : List Char → Option (List Nat)
  | [] => some []
  | [_] => none
  | c1 :: c2 :: rest => do
    let hi ← hexDigitVal c1
    let lo ← hexDigitVal c2
    let tail ← hexDecodeChars rest
    pure ((hi * 16 + lo) :: tail)

/-- Model of `strings.TrimPrefix(s, "0x")`: drop a leading `0x` marker if present. -/
def dropHexMarker (s : List Char) : List Char :=
  match s with
  | '0' :: 'x' :: rest => rest
  | other => other

/-- Errors surfaced by `HexToHash`. -/
inductive HexToHashError where
  | invalidHex
  | invalidLength (n : Nat)
deriving DecidableEq

/-- Source `HexToHash` from `common/types/hash.go`: the empty string maps to the
all-zero hash; otherwise the input with an optional `0x` marker removed must
be valid hex decoding to exactly 32 bytes. -/
def hexToHash (s : List Char) : Except HexToHashError Hash :=
  if s = [] then
    .ok emptyHash
  else
    match hexDecodeChars (dropHexMarker s) with
    | none => .error .invalidHex
    | some h =>
      if hlen : h.length = 32 then
        .ok ⟨h, hlen⟩
      else
        .error (.invalidLength h.length)

/-! ## Secret extraction (`protocol/xmrmaker/swap_state.go`, `getSecret`) -/

/-- The DLEq proof held in `swapState.dleqProof`; only its 32-byte `Secret()`
component matters to `getSecret`. -/
structure DleqProof where
  secret : Hash
deriving DecidableEq

/-- A Monero private key pair (`mcrypto.PrivateKeyPair`); only the spend-key
scalar bytes (`SpendKeyBytes()`, 32 bytes little-endian) are relevant here. -/
structure PrivateKeyPair where
  spendKeyBytes : Hash
deriving DecidableEq

/-- Source `swapState.getSecret`: with a DLEq proof set it returns the proof's
secret; otherwise it copies `common.Reverse(s.privkeys.SpendKeyBytes())`
(a reversed copy of the 32 spend-key bytes) into the 32-byte result. -/
def getSecret (dleqProof : Option DleqProof) (privkeys : PrivateKeyPair) : Hash :=
  match dleqProof with
  | some p => p.secret
  | none =>
    ⟨privkeys.spendKeyBytes.val.reverse, by
      rw [List.length_reverse]; exact privkeys.spendKeyBytes.property⟩

/-! ## Message codec (`net/message/message.go`) -/

/-- The five known p2p message types. -/
inductive MessageType where
  | queryResponse
  | relayClaimRequest
  | relayClaimResponse
  | sendKeys
  | notifyETHLocked
deriving DecidableEq

/-- The type-byte constants of `net/message/message.go` lines 21-28
(`Unknown = 0` occupies the uninitialized value; codes 1-5 are the known
types). -/
def messageTypeOfByte : Nat → Option MessageType
  | 1 => some .queryResponse
  | 2 => some .relayClaimRequest
  | 3 => some .relayClaimResponse
  | 4 => some .sendKeys
  | 5 => some .notifyETHLocked
  | _ => none

/-- Errors of `DecodeMessage`. -/
inductive DecodeMessageError where
  | invalidMessageBytes
  | invalidMessageType (code : Nat)
  | unmarshalFailed (t : MessageType)
deriving DecidableEq

/-- Source `DecodeMessage`: a buffer shorter than 3 bytes (1 type byte plus at least
`\x7b\x7d`) is invalid; the type byte selects the typed constructor, an
unknown code is an invalid-message-type error; otherwise the remaining bytes
are JSON-unmarshalled into the selected type.  The JSON-unmarshal-with-field-
validation step (`vjson.UnmarshalStruct`) lives outside the embedded sources
and is supplied as the verdict function `vj`. -/
def decodeMessage (vj : MessageType → List Nat → Bool) (b : List Nat) :
    Except DecodeMessageError (MessageType × List Nat) :=
  if b.length < 3 then .error .invalidMessageBytes
  else
    match b with
    | [] => .error .invalidMessageBytes
    | t :: rest =>
      match messageTypeOfByte t with
      | none => .error (.invalidMessageType t)
      | some mt =>
        if vj mt rest then .ok (mt, rest) else .error (.unmarshalFailed mt)

/-! ## Relay claim validation (`relayer/validate.go`, `validateClaimValues`) -/

/-- Source `types.EthAsset` is an Ethereum address; the zero address denotes native
ETH.  Addresses are modelled as `Nat`. -/
abbrev EthAsset := Nat

/-- Source `types.EthAssetETH`: the zero address. -/
def ethAssetETH : EthAsset := 0

/-- Source `contracts.SwapFactorySwap` (the on-chain `Swap` struct). -/
structure SwapFactorySwap where
  owner : Nat
  claimer : Nat
  pubKeyClaim : Hash
  pubKeyRefund : Hash
  timeout0 : Int
  timeout1 : Int
  asset : EthAsset
  value : Int
  nonce : Int
deriving DecidableEq

/-- Source `message.RelayClaimRequest`. -/
structure RelayClaimRequest where
  swapFactoryAddress : Nat
  swap : SwapFactorySwap
  secret : List Nat
  signature : List Nat
deriving DecidableEq

/-- Errors of `validateClaimValues`. -/
inductive ClaimValidationError where
  | unknownFactoryBytecode
  | unsupportedAsset (asset : EthAsset)
  | swapValueBelowFee
deriving DecidableEq

/-- Source `validateClaimValues`: when the request's swap-factory address differs
from ours, the deployed bytecode of factory and forwarder must verify
(`contracts.CheckSwapFactoryContractCode`, an on-chain lookup whose verdict
is supplied as `checkCode`); then the swap asset must be native ETH, and
`FeeWei.Cmp(req.Swap.Value) >= 0` — the fee equalling or exceeding the swap
value — is rejected. -/
def validateClaimValues (checkCode : Nat → Bool) (ourSwapFactoryAddr : Nat)
    (feeWei : Int) (req : RelayClaimRequest) : Except ClaimValidationError Unit :=
  if req.swapFactoryAddress ≠ ourSwapFactoryAddr ∧ ¬ checkCode req.swapFactoryAddress then
    .error .unknownFactoryBytecode
  else if req.swap.asset ≠ ethAssetETH then
    .error (.unsupportedAsset req.swap.asset)
  else if feeWei ≥ req.swap.value then
    .error .swapValueBelowFee
  else
    .ok ()

/-! ## Relayed-claim receipt validation (`waitForClaimReceipt`,
`checkClaimedLog` in `protocol/xmrmaker`) -/

/-- An Ethereum log entry (`ethtypes.Log`): emitting address and topics. -/
structure EthLog where
  address : Nat
  topics : List Hash
deriving DecidableEq

/-- An Ethereum transaction receipt: whether `Status` equals
`ethtypes.ReceiptStatusSuccessful`, and the logs. -/
structure EthReceipt where
  statusSuccessful : Bool
  logs : List EthLog
deriving DecidableEq

/-- Errors of the receipt-validation tail of `waitForClaimReceipt`. -/
inductive ClaimReceiptError where
  | txFailed
  | noLogs
  | claimedLogInvalidContractAddr
  | claimedLogWrongTopicLength
  | claimedLogWrongEvent
  | claimedLogWrongSwapID
  | claimedLogWrongSecret
deriving DecidableEq

/-- Source `checkClaimedLog`: address must be the contract address; there must be
exactly 3 topics (the source checks `len(log.Topics) != 3` before indexing,
rendered here as the three-element pattern); topic 0 must be the `Claimed`
event topic, topic 1 the contract swap ID, topic 2 the secret. -/
def checkClaimedLog (claimedTopic : Hash) (l : EthLog) (contractAddr : Nat)
    (contractSwapID secret : Hash) : Except ClaimReceiptError Unit :=
  if l.address ≠ contractAddr then .error .claimedLogInvalidContractAddr
  else
    match l.topics with
    | [t0, t1, t2] =>
      if t0 ≠ claimedTopic then .error .claimedLogWrongEvent
      else if t1 ≠ contractSwapID then .error .claimedLogWrongSwapID
      else if t2 ≠ secret then .error .claimedLogWrongSecret
      else .ok ()
    | _ => .error .claimedLogWrongTopicLength

/-- The receipt-validation tail of `waitForClaimReceipt` (everything after
the transaction is mined and `TransactionReceipt` succeeds): require a
successful status, at least one log, and a valid first `Claimed` log. -/
def validateClaimReceipt (claimedTopic : Hash) (receipt : EthReceipt)
    (contractAddr : Nat) (contractSwapID secret : Hash) :
    Except ClaimReceiptError Unit :=
  if ¬ receipt.statusSuccessful then .error .txFailed
  else
    match receipt.logs with
    | [] => .error .noLogs
    | l :: _ => checkClaimedLog claimedTopic l contractAddr contractSwapID secret

/-! ## The inclusion-polling loop of `waitForClaimReceipt` -/

/-- One answer of the Ethereum client to `TransactionByHash`. -/
inductive TxByHashResponse where
  | notFound
  | rpcError
  | tx (isPending : Bool)
deriving DecidableEq

/-- Errors of the inclusion-polling loop. -/
inductive WaitForClaimError where
  | notFound
  | rpcError
  | relayedTransactionTimeout
  | responsesExhausted
deriving DecidableEq

/-- The wait-for-inclusion loop of `waitForClaimReceipt` (lines 169-200 of the
source): each iteration sleeps one `checkInterval` (1 s), polls
`TransactionByHash`, and — exactly as the source is written — on a `NotFound`
error continues (incrementing `notFoundCount`) only when
`notFoundCount >= maxNotFound` (10) already holds, returning the error
otherwise; any other poll error is returned; after a successful poll, if more
than `maxWait` (60 s) elapsed the relayed-transaction-timeout error is
returned, and a no-longer-pending transaction ends the loop.  Wall time is
modelled by counting the 1-second sleeps (`elapsed`); the client's successive
answers are the list `responses`, and exhausting them models context
cancellation (the loop otherwise never terminates on its own). -/
def pollForInclusion :
    List TxByHashResponse → Nat → Nat → Except WaitForClaimError Unit
  | [], _, _ => .error .responsesExhausted
  | r :: rest, notFoundCount, elapsed =>
    match r with
    | .notFound =>
      if notFoundCount ≥ 10 then pollForInclusion rest (notFoundCount + 1) (elapsed + 1)
      else .error .notFound
    | .rpcError => .error .rpcError
    | .tx isPending =>
      if elapsed + 1 > 60 then .error .relayedTransactionTimeout
      else if isPending then pollForInclusion rest notFoundCount (elapsed + 1)
      else .ok ()

/-! ## Swap status, events, recovery and exit
(`protocol/xmrmaker/swap_state.go`; the `Status` and `EventType`
declarations live outside the embedded sources and are modelled from the
specification) -/

/-- Modelled from the spec: the swap `Status` values of §3 (the
`common/types` status declarations are not among the embedded sources). -/
inductive Status where
  | ongoing
  | keysExchanged
  | ethLocked
  | xmrLocked
  | contractReady
  | completedSuccess
  | completedRefund
  | completedAbort
deriving DecidableEq

/-- Modelled from the spec: the stage order of statuses along the progression
`KeysExchanged → ETHLocked → XMRLocked → ContractReady → Completed*`. -/
def Status.rank : Status → Nat
  | .ongoing => 0
  | .keysExchanged => 1
  | .ethLocked => 2
  | .xmrLocked => 3
  | .contractReady => 4
  | .completedSuccess => 5
  | .completedRefund => 5
  | .completedAbort => 5

/-- Modelled from the spec: the terminal statuses. -/
def Status.isTerminal : Status → Bool
  | .completedSuccess => true
  | .completedRefund => true
  | .completedAbort => true
  | _ => false

/-- Modelled from the spec: the swap event alphabet of §4.7 (the `EventType`
declarations are not among the embedded sources).  `noneEvent` is the
terminal no-further-event-expected marker. -/
inductive EventType where
  | keysReceived
  | ethLocked
  | contractReady
  | ethRefunded
  | shouldRefund
  | exitEvent
  | noneEvent
deriving DecidableEq

/-- Modelled from the spec: `nextExpectedEventFromStatus`, mapping a persisted
status to the event the resumed state machine waits for (§4.7): after keys
are exchanged the maker waits for the peer's `NotifyETHLocked`; with XMR
locked it waits for the `Ready` (contract-ready) log; terminal statuses
expect nothing. -/
def nextExpectedEventFromStatus : Status → EventType
  | .ongoing => .ethLocked
  | .keysExchanged => .ethLocked
  | .ethLocked => .contractReady
  | .xmrLocked => .contractReady
  | .contractReady => .contractReady
  | .completedSuccess => .noneEvent
  | .completedRefund => .noneEvent
  | .completedAbort => .noneEvent

/-- Source `db.EthereumSwapInfo` (recovery record). -/
structure EthereumSwapInfo where
  startNumber : Int
  swapID : Hash
  swap : SwapFactorySwap
  contractAddress : Nat
deriving DecidableEq

/-- The persisted `pswap.Info` fields consumed by recovery. -/
structure SwapInfo where
  status : Status
  moneroStartHeight : Nat
deriving DecidableEq

/-- The fields of a resumed `swapState` that `newSwapStateFromOngoing`
determines (collaborator handles — backend, watchers, transaction sender —
are elided; their construction does not inspect the persisted status). -/
structure ResumedSwapState where
  privkeys : PrivateKeyPair
  contractAddr : Nat
  contractSwapID : Hash
  contractSwap : SwapFactorySwap
  timeout0 : Int
  timeout1 : Int
  moneroStartHeight : Nat
  nextExpectedEvent : EventType
deriving DecidableEq

/-- Source `errInvalidStageForRecovery`. -/
inductive RecoveryError where
  | invalidStageForRecovery
deriving DecidableEq

/-- Source `newSwapStateFromOngoing`: recovery of a persisted swap.  The source
rejects every persisted status other than `XMRLocked`
(`if info.Status != types.XMRLocked`), then rebuilds the swap state from the
recovery record and the persisted key. -/
def newSwapStateFromOngoing (ethSwapInfo : EthereumSwapInfo) (info : SwapInfo)
    (sk : PrivateKeyPair) : Except RecoveryError ResumedSwapState :=
  if info.status ≠ Status.xmrLocked then .error .invalidStageForRecovery
  else
    .ok
      { privkeys := sk
        contractAddr := ethSwapInfo.contractAddress
        contractSwapID := ethSwapInfo.swapID
        contractSwap := ethSwapInfo.swap
        timeout0 := ethSwapInfo.swap.timeout0
        timeout1 := ethSwapInfo.swap.timeout1
        moneroStartHeight := info.moneroStartHeight
        nextExpectedEvent := nextExpectedEventFromStatus info.status }

/-- The protocol-visible state that `swapState.exit` reads and writes: the
next expected event and the swap status. -/
structure ProtocolState where
  nextExpectedEvent : EventType
  status : Status
deriving DecidableEq

/-- Modelled from the spec: `clearNextExpectedEvent(status)` records the new
status and clears the next expected event (its declaration is not among the
embedded sources). -/
def clearNextExpectedEvent (s : ProtocolState) (newStatus : Status) : ProtocolState :=
  { s with nextExpectedEvent := .noneEvent, status := newStatus }

/-- Source `errUnexpectedMessageType`, returned by `exit` in its default case. -/
inductive ExitError where
  | unexpectedMessageType
deriving DecidableEq

/-- Outcome of `swapState.exit`: either it finishes with a possibly-updated
protocol state and a possible error, or (in the `EventContractReadyType`
case) it takes control of the event channel and blocks for the next
`ContractReady`/`ETHRefunded` event. -/
inductive ExitOutcome where
  | done (state : ProtocolState) (err : Option ExitError)
  | awaitChainEvent (state : ProtocolState)
deriving DecidableEq

/-- Source `swapState.exit` (the switch on `s.nextExpectedEvent`):
`EventETHLockedType` aborts with no error; `EventContractReadyType` waits for
the next chain event; `EventNoneType` is a no-op; every other value aborts
and returns `errUnexpectedMessageType`. -/
def exit (s : ProtocolState) : ExitOutcome :=
  match s.nextExpectedEvent with
  | .ethLocked => .done (clearNextExpectedEvent s .completedAbort) none
  | .contractReady => .awaitChainEvent s
  | .noneEvent => .done s none
  | _ => .done (clearNextExpectedEvent s .completedAbort) (some .unexpectedMessageType)

/-! ## Offers (`common/types/hash.go`): decimals, versions, hashing,
validation and the JSON codec -/

/-- An arbitrary-precision decimal `coeff × 10 ^ exp` (`apd.Decimal`). -/
structure Dec where
  coeff : Int
  exp : Int
deriving DecidableEq

/-- Strip trailing decimal zeros from a natural number, returning the
stripped value and how many zeros were removed; structural recursion on a
fuel counter (the value itself bounds the number of divisions needed). -/
def natStripZerosAux : Nat → Nat → Nat × Nat
  | 0, n => (n, 0)
  | fuel + 1, n =>
    if n ≠ 0 ∧ n % 10 = 0 then
      let p := natStripZerosAux fuel (n / 10)
      (p.1, p.2 + 1)
    else (n, 0)

/-- Strip trailing decimal zeros from a natural number. -/
def natStripZeros (n : Nat) : Nat × Nat := natStripZerosAux n n

/-- Model of `apd.Decimal.Reduce`: remove trailing zeros from the coefficient,
raising the exponent accordingly; zero reduces to exponent 0. -/
def Dec.reduce (d : Dec) : Dec :=
  if d.coeff = 0 then ⟨0, 0⟩
  else
    let p := natStripZeros d.coeff.natAbs
    ⟨if d.coeff < 0 then -(p.1 : Int) else (p.1 : Int), d.exp + p.2⟩

/-- A decimal is in reduced form when `Reduce` leaves it unchanged. -/
def Dec.isReduced (d : Dec) : Prop := d.reduce = d

instance (d : Dec) : Decidable d.isReduced :=
  inferInstanceAs (Decidable (d.reduce = d))

/-- Model of `apd.Decimal.Text('f')`: fixed-point rendering of `coeff × 10 ^ exp`
without an exponent part. -/
def decFixedText (d : Dec) : String :=
  let sign := if d.coeff < 0 then "-" else ""
  let ds := Nat.repr d.coeff.natAbs
  if 0 ≤ d.exp then
    sign ++ ds ++ String.mk (List.replicate d.exp.toNat '0')
  else
    let k := (-d.exp).toNat
    if k < ds.length then
      sign ++ (ds.toList.take (ds.length - k)).asString ++ "." ++
        (ds.toList.drop (ds.length - k)).asString
    else
      sign ++ "0." ++ String.mk (List.replicate (k - ds.length) '0') ++ ds

/-- Model of `apd.Decimal.Cmp(a, b) > 0`: numeric greater-than of decimal values,
by aligning exponents. -/
def decGT (a b : Dec) : Bool :=
  let e := min a.exp b.exp
  decide (b.coeff * 10 ^ (b.exp - e).toNat < a.coeff * 10 ^ (a.exp - e).toNat)

/-- Number of decimal places of a decimal's value (after reduction). -/
def Dec.numDecimalPlaces (d : Dec) : Nat := (-(d.reduce.exp)).toNat

/-- Errors of offer validation and unmarshalling. -/
inductive OfferError where
  | versionMissing
  | versionUnsupported
  | idNotSet
  | amountInvalid
  | minGreaterThanMax
  | exchangeRateNil
  | hashMismatch
  | jsonTypeError
deriving DecidableEq

/-- Modelled from the spec: `coins.ValidatePositive(name, maxDecimals, d)`
(the `coins` package is not among the embedded sources).  The decimal must be
present, strictly positive, and within range — no more decimal places than
`maxDecimals`; violations are the nil / non-positive / out-of-range amount
errors. -/
def validatePositive (maxDecimals : Nat) : Option Dec → Except OfferError Unit
  | none => .error .amountInvalid
  | some d =>
    if d.coeff ≤ 0 then .error .amountInvalid
    else if maxDecimals < d.numDecimalPlaces then .error .amountInvalid
    else .ok ()

/-- Source `coins.NumMoneroDecimals`: 12 (piconero precision). -/
def numMoneroDecimals : Nat := 12

/-- A semantic version (`semver.Version`). -/
structure SemVer where
  major : Nat
  minor : Nat
  patch : Nat
deriving DecidableEq

/-- Model of `semver.Version.String()`: dotted decimal. -/
def SemVer.toText (v : SemVer) : String :=
  Nat.repr v.major ++ "." ++ Nat.repr v.minor ++ "." ++ Nat.repr v.patch

/-- Model of `semver.Version.GreaterThan`: lexicographic on major, minor, patch. -/
def SemVer.greaterThan (a b : SemVer) : Bool :=
  if a.major ≠ b.major then decide (b.major < a.major)
  else if a.minor ≠ b.minor then decide (b.minor < a.minor)
  else decide (b.patch < a.patch)

/-- Source `CurOfferVersion`: 1.0.0, the latest supported offer version. -/
def curOfferVersion : SemVer := ⟨1, 0, 0⟩

/-- Model of `EthAsset.String()`: native ETH renders as `ETH`, a token as its
address.  Both `Offer.hash` and the specification's canonical sequence use
this same rendering, whose exact address format is external
(`ethcommon.Address`). -/
def ethAssetText (a : EthAsset) : String :=
  if a = ethAssetETH then "ETH" else "0x" ++ Nat.repr a

/-- Source `types.Offer`.  Pointer-valued fields (`*apd.Decimal`,
`*coins.ExchangeRate`) are `Option`s; `coins.ProvidesCoin` is a string;
the exchange rate is its underlying decimal. -/
structure Offer where
  version : SemVer
  id : Hash
  provides : String
  minAmount : Option Dec
  maxAmount : Option Dec
  exchangeRate : Option Dec
  ethAsset : EthAsset
  nonce : Nat
deriving DecidableEq

/-- The byte sequence hashed by `Offer.hash` (lines 123-136 of the source):
`version || provides || "," || minAmount || "," || maxAmount || "," ||
exchangeRate || "," || ethAsset || "," || nonce`, decimals rendered by
`Text('f')` and the nonce in decimal.  A nil decimal would panic in Go; it is
rendered from the zero decimal here (unreachable under `validate`, which
rejects nil first). -/
def Offer.canonicalText (o : Offer) : String :=
  o.version.toText ++ o.provides ++ "," ++
  decFixedText (o.minAmount.getD ⟨0, 0⟩) ++ "," ++
  decFixedText (o.maxAmount.getD ⟨0, 0⟩) ++ "," ++
  decFixedText (o.exchangeRate.getD ⟨0, 0⟩) ++ "," ++
  ethAssetText o.ethAsset ++ "," ++ Nat.repr o.nonce

/-- Source `Offer.hash`: SHA3-256 of the canonical byte sequence.  SHA3-256 is an
external library primitive (`golang.org/x/crypto/sha3`) and is a parameter
of every definition and theorem below that involves offer hashing. -/
def Offer.hashOf (sha3 : String → Hash) (o : Offer) : Hash :=
  sha3 o.canonicalText

/-- Source `Offer.validate` (lines 160-187): the ID must be set, both amounts must
be positive and in range, `minAmount ≤ maxAmount`, the exchange rate must be
present, and the ID must equal the hash of the fields. -/
def Offer.validate (sha3 : String → Hash) (o : Offer) : Except OfferError Unit :=
  if isHashZero o.id then .error .idNotSet
  else
    match validatePositive numMoneroDecimals o.minAmount with
    | .error e => .error e
    | .ok _ =>
      match validatePositive numMoneroDecimals o.maxAmount with
      | .error e => .error e
      | .ok _ =>
        if decGT (o.minAmount.getD ⟨0, 0⟩) (o.maxAmount.getD ⟨0, 0⟩) then
          .error .minGreaterThanMax
        else if o.exchangeRate.isNone then .error .exchangeRateNil
        else if o.id ≠ o.hashOf sha3 then .error .hashMismatch
        else .ok ()

/-- A JSON value, at the granularity the offer codec needs.  Textual atom
encodings that belong to external libraries and round-trip there (hex of
hashes via `ethcommon.Hash`, dotted-decimal versions via `semver`,
arbitrary-precision numbers via `apd`) are modelled as structured atoms. -/
inductive Json where
  | null
  | str (s : String)
  | num (d : Dec)
  | sem (v : SemVer)
  | hashVal (h : Hash)
  | natNum (n : Nat)
  | obj (fields : List (String × Json))

/-- Field lookup in a JSON object. -/
def lookupField : List (String × Json) → String → Option Json
  | [], _ => none
  | (k, v) :: rest, key => if k = key then some v else lookupField rest key

/-- Decode a version-valued field; an absent field or JSON `null` leaves the
zero value (Go `encoding/json` semantics for non-pointer struct fields). -/
def getJsonSem : Option Json → Except OfferError SemVer
  | none => .ok ⟨0, 0, 0⟩
  | some .null => .ok ⟨0, 0, 0⟩
  | some (.sem v) => .ok v
  | some _ => .error .jsonTypeError

/-- Decode a hash-valued field; absent or `null` leaves the zero hash. -/
def getJsonHash : Option Json → Except OfferError Hash
  | none => .ok emptyHash
  | some .null => .ok emptyHash
  | some (.hashVal h) => .ok h
  | some _ => .error .jsonTypeError

/-- Decode a string field; absent or `null` leaves the empty string. -/
def getJsonStr : Option Json → Except OfferError String
  | none => .ok ""
  | some .null => .ok ""
  | some (.str s) => .ok s
  | some _ => .error .jsonTypeError

/-- Decode a pointer-to-decimal field; absent or `null` leaves nil. -/
def getJsonDec : Option Json → Except OfferError (Option Dec)
  | none => .ok none
  | some .null => .ok none
  | some (.num d) => .ok (some d)
  | some _ => .error .jsonTypeError

/-- Decode an unsigned-integer field; absent or `null` leaves zero. -/
def getJsonNat : Option Json → Except OfferError Nat
  | none => .ok 0
  | some .null => .ok 0
  | some (.natNum n) => .ok n
  | some _ => .error .jsonTypeError

/-- The field decoding performed by `vjson.UnmarshalStruct` when filling an
`Offer` (standard JSON struct decoding by field name; absent fields keep
their zero values).  `vjson` is not among the embedded sources; its
required-field checks surface through `Offer.validate` below, as the
specification describes (§4.2). -/
def unmarshalOfferFields (j : Json) : Except OfferError Offer :=
  match j with
  | .obj fs => do
    let version ← getJsonSem (lookupField fs "version")
    let id ← getJsonHash (lookupField fs "offerID")
    let provides ← getJsonStr (lookupField fs "provides")
    let minAmount ← getJsonDec (lookupField fs "minAmount")
    let maxAmount ← getJsonDec (lookupField fs "maxAmount")
    let exchangeRate ← getJsonDec (lookupField fs "exchangeRate")
    let ethAsset ← getJsonNat (lookupField fs "ethAsset")
    let nonce ← getJsonNat (lookupField fs "nonce")
    pure { version, id, provides, minAmount, maxAmount, exchangeRate,
           ethAsset, nonce }
  | _ => .error .jsonTypeError

/-- JSON form of a pointer-to-decimal field. -/
def jsonOfOptDec : Option Dec → Json
  | none => .null
  | some d => .num d

/-- The JSON object `vjson.MarshalStruct` produces for an offer: all eight
fields under their JSON names. -/
def Offer.toJson (o : Offer) : Json :=
  .obj [("version", .sem o.version),
        ("offerID", .hashVal o.id),
        ("provides", .str o.provides),
        ("minAmount", jsonOfOptDec o.minAmount),
        ("maxAmount", jsonOfOptDec o.maxAmount),
        ("exchangeRate", jsonOfOptDec o.exchangeRate),
        ("ethAsset", .natNum o.ethAsset),
        ("nonce", .natNum o.nonce)]

/-- Source `Offer.MarshalJSON` (lines 225-232): validate, then marshal the fields. -/
def Offer.marshalJson (sha3 : String → Hash) (o : Offer) : Except OfferError Json :=
  match o.validate sha3 with
  | .error e => .error e
  | .ok _ => .ok o.toJson

/-- Source `Offer.UnmarshalJSON` (lines 235-242): decode the fields, then
validate. -/
def Offer.unmarshalJson (sha3 : String → Hash) (j : Json) : Except OfferError Offer :=
  match unmarshalOfferFields j with
  | .error e => .error e
  | .ok o =>
    match o.validate sha3 with
    | .error e => .error e
    | .ok _ => .ok o

/-- Source `UnmarshalOffer` (lines 197-222): first read only the version (absent or
JSON `null` gives the version-missing error), reject a version strictly
greater than `CurOfferVersion`, then decode the whole offer, which
validates. -/
def unmarshalOffer (sha3 : String → Hash) (j : Json) : Except OfferError Offer :=
  match j with
  | .obj fs =>
    match lookupField fs "version" with
    | none => .error .versionMissing
    | some .null => .error .versionMissing
    | some (.sem v) =>
      if v.greaterThan curOfferVersion then .error .versionUnsupported
      else Offer.unmarshalJson sha3 j
    | some _ => .error .jsonTypeError
  | _ => .error .jsonTypeError

/-- The canonical byte sequence in the specification's words: `version ||
provides || "," || minAmount || "," || maxAmount || "," || exchangeRate ||
"," || ethAsset || "," || nonce` where decimal values are textually reduced
(trailing-zero-free).  This definition follows the specification's wording
and is compared against `Offer.canonicalText`, which follows the source. -/
def specCanonicalText (o : Offer) : String :=
  o.version.toText ++ o.provides ++ "," ++
  decFixedText (o.minAmount.getD ⟨0, 0⟩).reduce ++ "," ++
  decFixedText (o.maxAmount.getD ⟨0, 0⟩).reduce ++ "," ++
  decFixedText (o.exchangeRate.getD ⟨0, 0⟩).reduce ++ "," ++
  ethAssetText o.ethAsset ++ "," ++ Nat.repr o.nonce

/-- A version-valued field is a version atom, `null`, or absent. -/
def fieldIsSemOrAbsent : Option Json → Bool
  | none => true
  | some .null => true
  | some (.sem _) => true
  | _ => false

/-- A hash-valued field is a hash atom, `null`, or absent. -/
def fieldIsHashOrAbsent : Option Json → Bool
  | none => true
  | some .null => true
  | some (.hashVal _) => true
  | _ => false

/-- A string-valued field is a string atom, `null`, or absent. -/
def fieldIsStrOrAbsent : Option Json → Bool
  | none => true
  | some .null => true
  | some (.str _) => true
  | _ => false

/-- A decimal-valued field is a number atom, `null`, or absent. -/
def fieldIsNumOrAbsent : Option Json → Bool
  | none => true
  | some .null => true
  | some (.num _) => true
  | _ => false

/-- An unsigned-integer field is a natural atom, `null`, or absent. -/
def fieldIsNatOrAbsent : Option Json → Bool
  | none => true
  | some .null => true
  | some (.natNum _) => true
  | _ => false

/-- All eight offer fields of a JSON object are well-typed for decoding into
an `Offer` (a mistyped field is a plain JSON decode error, outside the
failure modes the offer layer defines). -/
def wellTypedOfferFields (fs : List (String × Json)) : Bool :=
  fieldIsSemOrAbsent (lookupField fs "version") &&
  fieldIsHashOrAbsent (lookupField fs "offerID") &&
  fieldIsStrOrAbsent (lookupField fs "provides") &&
  fieldIsNumOrAbsent (lookupField fs "minAmount") &&
  fieldIsNumOrAbsent (lookupField fs "maxAmount") &&
  fieldIsNumOrAbsent (lookupField fs "exchangeRate") &&
  fieldIsNatOrAbsent (lookupField fs "ethAsset") &&
  fieldIsNatOrAbsent (lookupField fs "nonce")

/-! ## Concrete test vectors -/

/-- Decidable equality for `Except` results, used to evaluate the
definitions on concrete inputs. -/
instance {ε α : Type} [DecidableEq ε] [DecidableEq α] : DecidableEq (Except ε α)
  | .ok a, .ok b =>
    if h : a = b then isTrue (by rw [h]) else isFalse (by intro hc; cases hc; exact h rfl)
  | .error a, .error b =>
    if h : a = b then isTrue (by rw [h]) else isFalse (by intro hc; cases hc; exact h rfl)
  | .ok _, .error _ => isFalse (by intro hc; cases hc)
  | .error _, .ok _ => isFalse (by intro hc; cases hc)

/-- Test vector: a fixed nonzero 32-byte hash. -/
def hashOne : Hash := ⟨1 :: List.replicate 31 0, by simp⟩

/-- Test vector: a second, distinct nonzero 32-byte hash. -/
def hashTwo : Hash := ⟨2 :: List.replicate 31 0, by simp⟩

/-- Test vector: an on-chain swap struct. -/
def sampleSwap : SwapFactorySwap :=
  { owner := 1, claimer := 2, pubKeyClaim := hashOne, pubKeyRefund := hashTwo,
    timeout0 := 100, timeout1 := 200, asset := ethAssetETH, value := 1000,
    nonce := 7 }

/-- Test vector: a recovery record for `sampleSwap`. -/
def sampleEthInfo : EthereumSwapInfo :=
  { startNumber := 5, swapID := hashOne, swap := sampleSwap, contractAddress := 9 }

/-- Test vector: a private key pair. -/
def samplePrivKeys : PrivateKeyPair := ⟨hashOne⟩

/-- Test vector: a relay claim request for an ERC-20 asset (address 5) whose
swap value (50) does not exceed the fee used in the counterexample (100). -/
def sampleErc20Request : RelayClaimRequest :=
  { swapFactoryAddress := 9,
    swap := { sampleSwap with asset := 5, value := 50 },
    secret := List.replicate 32 0,
    signature := List.replicate 65 0 }

/-- Test vector: a relay claim request for native ETH with value 1000. -/
def sampleEthRequest : RelayClaimRequest :=
  { swapFactoryAddress := 9,
    swap := sampleSwap,
    secret := List.replicate 32 0,
    signature := List.replicate 65 0 }

/-- Test vector: SHA3 stand-in mapping the canonical string of the reduced
test offer to `hashOne` and everything else to `hashTwo`. -/
def sampleSha3 : String → Hash :=
  fun s => if s = "1.0.0XMR,0.1,0.1,1,ETH,1" then hashOne else hashTwo

/-- Test vector: a valid offer with reduced decimals (`0.1`), whose ID is
the hash of its fields under `sampleSha3`. -/
def sampleOfferReduced : Offer :=
  { version := ⟨1, 0, 0⟩, id := hashOne, provides := "XMR",
    minAmount := some ⟨1, -1⟩, maxAmount := some ⟨1, -1⟩,
    exchangeRate := some ⟨1, 0⟩, ethAsset := ethAssetETH, nonce := 1 }

/-- Test vector: SHA3 stand-in mapping the canonical string of the
non-reduced test offer (decimals stored as `0.10`) to `hashOne` and
everything else to `hashTwo`. -/
def sampleSha3NR : String → Hash :=
  fun s => if s = "1.0.0XMR,0.10,0.10,1,ETH,1" then hashOne else hashTwo

/-- Test vector: an offer whose stored decimals carry a trailing zero
(`0.10`, coefficient 10 and exponent -2) and whose ID is the hash of its
fields as the source computes it. -/
def sampleOfferNonReduced : Offer :=
  { version := ⟨1, 0, 0⟩, id := hashOne, provides := "XMR",
    minAmount := some ⟨10, -2⟩, maxAmount := some ⟨10, -2⟩,
    exchangeRate := some ⟨1, 0⟩, ethAsset := ethAssetETH, nonce := 1 }

/-! ## Theorems -/

/-- C10: `HexToHash` maps the empty string to the all-zero hash with no
error; a non-empty input succeeds exactly when the input without its
optional `0x` marker is valid hex that decodes to exactly 32 bytes, and it
returns the decoded 32 bytes in that case. -/
theorem hexToHash_spec (s : List Char) (hne : s ≠ []) :
    hexToHash [] = .ok emptyHash ∧
    ((∃ h, hexToHash s = .ok h) ↔
      ∃ l, hexDecodeChars (dropHexMarker s) = some l ∧ l.length = 32) ∧
    (∀ l, hexDecodeChars (dropHexMarker s) = some l → ∀ hl : l.length = 32,
      hexToHash s = .ok ⟨l, hl⟩) := by
  refine ⟨rfl, ?_, ?_⟩
  · unfold hexToHash
    rw [if_neg hne]
    cases hd : hexDecodeChars (dropHexMarker s) with
    | none => simp
    | some l =>
      by_cases hl : l.length = 32
      · simp only [hl, dif_pos]
        constructor
        · intro _; exact ⟨l, rfl, hl⟩
        · intro _; exact ⟨_, rfl⟩
      · simp only [hl, dif_neg, not_false_iff]
        constructor
        · intro ⟨h, hh⟩; cases hh
        · intro ⟨l2, hl2, hlen⟩
          cases hl2
          exact absurd hlen hl
  · intro l hd hl
    unfold hexToHash
    rw [if_neg hne, hd]
    simp only [hl, dif_pos]

/-- Witness for C10: the 64-character zero string decodes to the zero hash. -/
theorem hexToHash_spec_witness :
    List.replicate 64 '0' ≠ ([] : List Char) ∧
    hexToHash (List.replicate 64 '0') = .ok emptyHash := by
  refine ⟨by decide, ?_⟩
  have h := (hexToHash_spec (List.replicate 64 '0') (by decide)).2.2
    (List.replicate 32 0) (by decide) (by decide)
  exact h

/-- C4: when the DLEq proof is not set, the 32-byte secret `getSecret`
produces for the Ethereum contract is the byte-reversal of the Monero
spend-key scalar bytes. -/
theorem getSecret_reverses_spend_key
    (dleqProof : Option DleqProof) (privkeys : PrivateKeyPair)
    (h : dleqProof = none) :
    (getSecret dleqProof privkeys).val = privkeys.spendKeyBytes.val.reverse := by
  subst h
  rfl

/-- Witness for C4 at a concrete spend key. -/
theorem getSecret_reverses_spend_key_witness :
    (getSecret none samplePrivKeys).val = samplePrivKeys.spendKeyBytes.val.reverse :=
  getSecret_reverses_spend_key none samplePrivKeys rfl

/-- C1 (behaviour of the source at the claim's inputs): the polling loop of
`waitForClaimReceipt` returns the `NotFound` error on the first `NotFound`
answer — with any continuation and at any elapsed time — instead of
tolerating up to 10 of them: the cap comparison `notFoundCount >= maxNotFound`
never holds before an error is returned, because the count starts at 0 and
is incremented only inside that branch.  In particular one `NotFound` answer
followed by the mined transaction yields an error, where the claim requires
success. -/
theorem pollForInclusion_notFound_bug :
    pollForInclusion [.notFound, .tx false] 0 0 = .error .notFound ∧
    pollForInclusion [.tx false] 0 0 = .ok () ∧
    ∀ (rest : List TxByHashResponse) (elapsed : Nat),
      pollForInclusion (.notFound :: rest) 0 elapsed = .error .notFound :=
  ⟨rfl, rfl, fun _ _ => rfl⟩

/-- C8: `exit` behaves by the next expected event: `ETHLocked`-expected
aborts (status `CompletedAbort`) with no error; `None`-expected leaves the
protocol state unchanged with no error; any value other than `ETHLocked`,
`ContractReady` and `None` sets `CompletedAbort` and returns the
unexpected-event error. -/
theorem exit_spec (s : ProtocolState) :
    (s.nextExpectedEvent = .ethLocked →
      exit s = .done ⟨.noneEvent, .completedAbort⟩ none) ∧
    (s.nextExpectedEvent = .noneEvent → exit s = .done s none) ∧
    (s.nextExpectedEvent ≠ .ethLocked → s.nextExpectedEvent ≠ .contractReady →
      s.nextExpectedEvent ≠ .noneEvent →
      exit s = .done ⟨.noneEvent, .completedAbort⟩ (some .unexpectedMessageType)) := by
  obtain ⟨ev, st⟩ := s
  cases ev <;> simp [exit, clearNextExpectedEvent]

/-- Witness for C8 at three concrete protocol states. -/
theorem exit_spec_witness :
    exit ⟨.ethLocked, .keysExchanged⟩ = .done ⟨.noneEvent, .completedAbort⟩ none ∧
    exit ⟨.noneEvent, .completedSuccess⟩ = .done ⟨.noneEvent, .completedSuccess⟩ none ∧
    exit ⟨.shouldRefund, .xmrLocked⟩ =
      .done ⟨.noneEvent, .completedAbort⟩ (some .unexpectedMessageType) :=
  ⟨(exit_spec _).1 rfl, (exit_spec _).2.1 rfl,
   (exit_spec _).2.2 (by decide) (by decide) (by decide)⟩

/-- C7 counterexample: a persisted status of `ContractReady` — at least
`XMRLocked` in stage order and non-terminal — is rejected by
`newSwapStateFromOngoing` with the invalid-stage error, where the claim
asserts the recovery constructor succeeds. -/
theorem newSwapStateFromOngoing_contractReady_rejected :
    Status.xmrLocked.rank ≤ Status.contractReady.rank ∧
    Status.contractReady.isTerminal = false ∧
    newSwapStateFromOngoing sampleEthInfo ⟨.contractReady, 42⟩ samplePrivKeys =
      .error .invalidStageForRecovery :=
  ⟨by decide, rfl, rfl⟩

/-- C7 (amended): the recovery constructor succeeds exactly when the
persisted status is `XMRLocked`; every other status — earlier or later —
fails with the invalid-stage error. -/
theorem newSwapStateFromOngoing_spec (ethSwapInfo : EthereumSwapInfo)
    (info : SwapInfo) (sk : PrivateKeyPair) :
    ((∃ s, newSwapStateFromOngoing ethSwapInfo info sk = .ok s) ↔
      info.status = .xmrLocked) ∧
    (info.status ≠ .xmrLocked →
      newSwapStateFromOngoing ethSwapInfo info sk =
        .error .invalidStageForRecovery) := by
  unfold newSwapStateFromOngoing
  by_cases h : info.status = Status.xmrLocked <;> simp [h]

/-- Witness for C7 (amended) at concrete recovery records. -/
theorem newSwapStateFromOngoing_spec_witness :
    (∃ s, newSwapStateFromOngoing sampleEthInfo ⟨.xmrLocked, 42⟩ samplePrivKeys = .ok s) ∧
    newSwapStateFromOngoing sampleEthInfo ⟨.keysExchanged, 42⟩ samplePrivKeys =
      .error .invalidStageForRecovery :=
  ⟨(newSwapStateFromOngoing_spec sampleEthInfo ⟨.xmrLocked, 42⟩ samplePrivKeys).1.mpr rfl,
   (newSwapStateFromOngoing_spec sampleEthInfo ⟨.keysExchanged, 42⟩ samplePrivKeys).2
     (by decide)⟩

/-- C5 counterexample: a claim request for an ERC-20 asset whose swap value
(50) is at most the fee (100) is rejected with the unsupported-asset error,
not the value-below-fee error, refuting the claim's "fails with a
value-below-fee error iff the swap's value is less than or equal to FeeWei"
at this input. -/
theorem validateClaimValues_claim_false :
    ¬((validateClaimValues (fun _ => true) 9 100 sampleErc20Request =
        .error .swapValueBelowFee) ↔ sampleErc20Request.swap.value ≤ 100) := by
  intro h
  have h2 := h.mpr (by decide)
  have h3 : validateClaimValues (fun _ => true) 9 100 sampleErc20Request =
      .error (.unsupportedAsset 5) := by decide
  rw [h3] at h2
  cases h2

/-- C5 (amended): past a passing bytecode check, `validateClaimValues` fails
with the unsupported-asset error iff the asset is not native ETH; fails with
the value-below-fee error iff the asset is ETH and the value is at most
`FeeWei`; and succeeds iff the asset is ETH and the value strictly exceeds
`FeeWei`. -/
theorem validateClaimValues_spec (checkCode : Nat → Bool) (ourAddr : Nat)
    (feeWei : Int) (req : RelayClaimRequest)
    (hcode : req.swapFactoryAddress = ourAddr ∨
      checkCode req.swapFactoryAddress = true) :
    ((validateClaimValues checkCode ourAddr feeWei req =
        .error (.unsupportedAsset req.swap.asset)) ↔
      req.swap.asset ≠ ethAssetETH) ∧
    ((validateClaimValues checkCode ourAddr feeWei req =
        .error .swapValueBelowFee) ↔
      (req.swap.asset = ethAssetETH ∧ req.swap.value ≤ feeWei)) ∧
    ((validateClaimValues checkCode ourAddr feeWei req = .ok ()) ↔
      (req.swap.asset = ethAssetETH ∧ feeWei < req.swap.value)) := by
  have hc : ¬(req.swapFactoryAddress ≠ ourAddr ∧
      ¬(checkCode req.swapFactoryAddress = true)) := by
    rcases hcode with h | h <;> simp [h]
  unfold validateClaimValues
  rw [if_neg hc]
  by_cases ha : req.swap.asset = ethAssetETH <;>
    by_cases hv : feeWei ≥ req.swap.value <;>
      simp [ha, hv] <;> omega

/-- Witness for C5 (amended) at a concrete ETH request with value 1000 and
fee 100. -/
theorem validateClaimValues_spec_witness :
    validateClaimValues (fun _ => true) 9 100 sampleEthRequest = .ok () := by
  have h := (validateClaimValues_spec (fun _ => true) 9 100 sampleEthRequest
    (Or.inl rfl)).2.2
  exact h.mpr (by decide)

/-- The first-log check of `checkClaimedLog` succeeds exactly on a log
emitted at the contract address with exactly the topics
`[claimedTopic, contractSwapID, secret]`. -/
theorem checkClaimedLog_ok_iff (claimedTopic : Hash) (l : EthLog)
    (contractAddr : Nat) (contractSwapID secret : Hash) :
    checkClaimedLog claimedTopic l contractAddr contractSwapID secret = .ok () ↔
      (l.address = contractAddr ∧
        l.topics = [claimedTopic, contractSwapID, secret]) := by
  obtain ⟨addr, topics⟩ := l
  unfold checkClaimedLog
  by_cases ha : addr = contractAddr
  · simp only [ha, ne_eq, not_true_eq_false, if_false, if_neg]
    rcases topics with _ | ⟨t0, _ | ⟨t1, _ | ⟨t2, _ | ⟨t3, rest⟩⟩⟩⟩ <;>
      simp_all <;>
        by_cases h0 : t0 = claimedTopic <;>
          by_cases h1 : t1 = contractSwapID <;>
            by_cases h2 : t2 = secret <;> simp_all
  · simp_all

/-- C6: relayed-claim receipt validation succeeds iff the receipt status is
successful, there is at least one log, and the first log was emitted at the
contract address with exactly the three topics `[claimedTopic,
contractSwapID, secret]`; moreover a first log at the right address with 2
or 4 topics is rejected with the wrong-topic-length error. -/
theorem validateClaimReceipt_spec (claimedTopic : Hash) (receipt : EthReceipt)
    (contractAddr : Nat) (contractSwapID secret : Hash) :
    ((validateClaimReceipt claimedTopic receipt contractAddr contractSwapID
        secret = .ok ()) ↔
      (receipt.statusSuccessful = true ∧
        ∃ l rest, receipt.logs = l :: rest ∧ l.address = contractAddr ∧
          l.topics = [claimedTopic, contractSwapID, secret])) ∧
    (∀ l rest, receipt.statusSuccessful = true → receipt.logs = l :: rest →
      l.address = contractAddr →
      (l.topics.length = 2 ∨ l.topics.length = 4) →
      validateClaimReceipt claimedTopic receipt contractAddr contractSwapID
        secret = .error .claimedLogWrongTopicLength) := by
  obtain ⟨status, logs⟩ := receipt
  constructor
  · unfold validateClaimReceipt
    cases status
    · simp
    · rcases logs with _ | ⟨l, rest⟩
      · simp
      · simpa using checkClaimedLog_ok_iff claimedTopic l contractAddr
          contractSwapID secret
  · intro l rest hstatus hlogs haddr hlen
    simp only at hstatus hlogs
    subst hstatus hlogs
    unfold validateClaimReceipt checkClaimedLog
    simp only [Bool.not_true, if_neg, haddr, ne_eq, not_true_eq_false, if_false]
    obtain ⟨laddr, topics⟩ := l
    rcases topics with _ | ⟨t0, _ | ⟨t1, _ | ⟨t2, _ | ⟨t3, rest2⟩⟩⟩⟩ <;>
      simp_all

/-- Witness for C6: a successful receipt whose first log carries exactly the
expected three topics validates, and the same log with only 2 topics is
rejected with the wrong-topic-length error. -/
theorem validateClaimReceipt_spec_witness :
    validateClaimReceipt hashOne
      ⟨true, [⟨9, [hashOne, hashTwo, emptyHash]⟩]⟩ 9 hashTwo emptyHash =
      .ok () ∧
    validateClaimReceipt hashOne
      ⟨true, [⟨9, [hashOne, hashTwo]⟩]⟩ 9 hashTwo emptyHash =
      .error .claimedLogWrongTopicLength := by
  constructor
  · exact (validateClaimReceipt_spec hashOne _ 9 hashTwo emptyHash).1.mpr
      ⟨rfl, _, _, rfl, rfl, rfl⟩
  · exact (validateClaimReceipt_spec hashOne _ 9 hashTwo emptyHash).2
      _ _ rfl rfl rfl (Or.inl rfl)

/-- Type codes outside 1-5 name no message type. -/
theorem messageTypeOfByte_unknown (t : Nat) (h1 : t ≠ 1) (h2 : t ≠ 2)
    (h3 : t ≠ 3) (h4 : t ≠ 4) (h5 : t ≠ 5) : messageTypeOfByte t = none := by
  match t with
  | 0 => rfl
  | 1 => exact absurd rfl h1
  | 2 => exact absurd rfl h2
  | 3 => exact absurd rfl h3
  | 4 => exact absurd rfl h4
  | 5 => exact absurd rfl h5
  | n + 6 => rfl

/-- C3: `DecodeMessage` fails on buffers shorter than 3 bytes while a
3-byte buffer passes the length check; it fails with the invalid-message-type
error when the type byte is none of the five codes 1-5; and otherwise it
dispatches the remaining bytes to the message type selected by the code
(1 = QueryResponse, 2 = RelayClaimRequest, 3 = RelayClaimResponse,
4 = SendKeys, 5 = NotifyETHLocked). -/
theorem decodeMessage_spec (vj : MessageType → List Nat → Bool) (b : List Nat) :
    (b.length < 3 → decodeMessage vj b = .error .invalidMessageBytes) ∧
    (b.length = 3 → decodeMessage vj b ≠ .error .invalidMessageBytes) ∧
    (∀ t rest, b = t :: rest → 3 ≤ b.length →
      t ≠ 1 → t ≠ 2 → t ≠ 3 → t ≠ 4 → t ≠ 5 →
      decodeMessage vj b = .error (.invalidMessageType t)) ∧
    (messageTypeOfByte 1 = some .queryResponse ∧
     messageTypeOfByte 2 = some .relayClaimRequest ∧
     messageTypeOfByte 3 = some .relayClaimResponse ∧
     messageTypeOfByte 4 = some .sendKeys ∧
     messageTypeOfByte 5 = some .notifyETHLocked) ∧
    (∀ t rest mt, b = t :: rest → 3 ≤ b.length →
      messageTypeOfByte t = some mt →
      decodeMessage vj b =
        if vj mt rest then .ok (mt, rest) else .error (.unmarshalFailed mt)) := by
  refine ⟨?_, ?_, ?_, ⟨rfl, rfl, rfl, rfl, rfl⟩, ?_⟩
  · intro h
    unfold decodeMessage
    rw [if_pos h]
  · intro h
    unfold decodeMessage
    rw [if_neg (by omega)]
    rcases b with _ | ⟨t, rest⟩
    · simp_all
    · cases hmt : messageTypeOfByte t
      · simp [hmt]
      · rename_i mt
        by_cases hv : vj mt rest <;> simp [hmt, hv]
  · intro t rest hb hlen h1 h2 h3 h4 h5
    subst hb
    unfold decodeMessage
    rw [if_neg (by omega)]
    simp [messageTypeOfByte_unknown t h1 h2 h3 h4 h5]
  · intro t rest mt hb hlen hmt
    subst hb
    unfold decodeMessage
    rw [if_neg (by omega)]
    simp [hmt]

/-- Witness for C3: a 3-byte QueryResponse frame decodes to type 1 with its
2-byte JSON body, an unknown type byte 9 is rejected, and a 2-byte buffer is
too short. -/
theorem decodeMessage_spec_witness :
    decodeMessage (fun _ _ => true) [1, 123, 125] = .ok (.queryResponse, [123, 125]) ∧
    decodeMessage (fun _ _ => true) [9, 123, 125] = .error (.invalidMessageType 9) ∧
    decodeMessage (fun _ _ => true) [1, 123] = .error .invalidMessageBytes := by
  refine ⟨?_, ?_, ?_⟩
  · have h := (decodeMessage_spec (fun _ _ => true) [1, 123, 125]).2.2.2.2
      1 [123, 125] .queryResponse rfl (by decide) rfl
    simpa using h
  · exact (decodeMessage_spec (fun _ _ => true) [9, 123, 125]).2.2.1
      9 [123, 125] rfl (by decide) (by decide) (by decide) (by decide)
      (by decide) (by decide)
  · exact (decodeMessage_spec (fun _ _ => true) [1, 123]).1 (by decide)

/-- An offer that passes the full validation has its ID equal to the hash of
its fields. -/
theorem validate_ok_id (sha3 : String → Hash) (o : Offer)
    (h : o.validate sha3 = .ok ()) : o.id = o.hashOf sha3 := by
  unfold Offer.validate at h
  split at h
  · simp at h
  · split at h
    · simp at h
    · split at h
      · simp at h
      · split at h
        · simp at h
        · split at h
          · simp at h
          · split at h
            · simp at h
            · rename_i hid
              exact not_not.mp hid

/-- Decoding the marshalled JSON object of an offer recovers the offer's
fields. -/
theorem unmarshalOfferFields_toJson (o : Offer) :
    unmarshalOfferFields o.toJson = .ok o := by
  obtain ⟨v, id, pr, mn, mx, ex, ea, no⟩ := o
  cases mn <;> cases mx <;> cases ex <;> rfl

/-- C2 counterexample: `sampleOfferNonReduced` stores its decimal amounts
as `0.10` (coefficient 10, exponent -2).  It satisfies the claim's validity
hypothesis — all fields set, positive amounts, min ≤ max, and its ID equal
to the hash of its fields exactly as the source computes it — yet its ID is
not the SHA3 of the canonical sequence with textually reduced decimal
values: the source hashes the stored, unreduced rendering (`0.10`), while
the reduced canonical sequence renders `0.1`. -/
theorem offer_hash_claim_false :
    Offer.validate sampleSha3NR sampleOfferNonReduced = .ok () ∧
    sampleOfferNonReduced.id ≠
      sampleSha3NR (specCanonicalText sampleOfferNonReduced) := by
  exact ⟨by decide, by decide⟩

/-- C2 (amended): for every offer accepted by the full offer validation
whose stored decimal fields are in reduced (trailing-zero-free) form — as
`NewOffer` guarantees — marshalling succeeds and produces the offer's JSON
object, unmarshalling that object recovers the offer in every field
including the ID, and the ID equals the SHA3-256 of the canonical sequence
`version || provides || "," || minAmount || "," || maxAmount || "," ||
exchangeRate || "," || ethAsset || "," || nonce` with decimal values
textually reduced. -/
theorem offer_roundtrip_and_hash (sha3 : String → Hash) (o : Offer)
    (hval : o.validate sha3 = .ok ())
    (hmin : (o.minAmount.getD ⟨0, 0⟩).isReduced)
    (hmax : (o.maxAmount.getD ⟨0, 0⟩).isReduced)
    (hrate : (o.exchangeRate.getD ⟨0, 0⟩).isReduced) :
    o.marshalJson sha3 = .ok o.toJson ∧
    Offer.unmarshalJson sha3 o.toJson = .ok o ∧
    o.id = sha3 (specCanonicalText o) := by
  have hmin2 : (o.minAmount.getD ⟨0, 0⟩).reduce = o.minAmount.getD ⟨0, 0⟩ := hmin
  have hmax2 : (o.maxAmount.getD ⟨0, 0⟩).reduce = o.maxAmount.getD ⟨0, 0⟩ := hmax
  have hrate2 : (o.exchangeRate.getD ⟨0, 0⟩).reduce = o.exchangeRate.getD ⟨0, 0⟩ := hrate
  refine ⟨?_, ?_, ?_⟩
  · unfold Offer.marshalJson
    rw [hval]
  · unfold Offer.unmarshalJson
    rw [unmarshalOfferFields_toJson]
    simp [hval]
  · have hcanon : specCanonicalText o = o.canonicalText := by
      unfold specCanonicalText Offer.canonicalText
      rw [hmin2, hmax2, hrate2]
    rw [hcanon]
    exact validate_ok_id sha3 o hval

/-- Witness for C2 (amended) at the concrete reduced test offer under the
`sampleSha3` stand-in. -/
theorem offer_roundtrip_and_hash_witness :
    Offer.unmarshalJson sampleSha3 sampleOfferReduced.toJson =
      .ok sampleOfferReduced ∧
    sampleOfferReduced.id = sampleSha3 (specCanonicalText sampleOfferReduced) := by
  have h := offer_roundtrip_and_hash sampleSha3 sampleOfferReduced
    (by decide) (by decide) (by decide) (by decide)
  exact ⟨h.2.1, h.2.2⟩

/-- A well-typed version field decodes. -/
theorem getJsonSem_of_wellTyped :
    ∀ x, fieldIsSemOrAbsent x = true → ∃ v, getJsonSem x = .ok v
  | none, _ => ⟨_, rfl⟩
  | some .null, _ => ⟨_, rfl⟩
  | some (.sem v), _ => ⟨v, rfl⟩
  | some (.str _), h => nomatch h
  | some (.num _), h => nomatch h
  | some (.hashVal _), h => nomatch h
  | some (.natNum _), h => nomatch h
  | some (.obj _), h => nomatch h

/-- A well-typed hash field decodes. -/
theorem getJsonHash_of_wellTyped :
    ∀ x, fieldIsHashOrAbsent x = true → ∃ v, getJsonHash x = .ok v
  | none, _ => ⟨_, rfl⟩
  | some .null, _ => ⟨_, rfl⟩
  | some (.hashVal v), _ => ⟨v, rfl⟩
  | some (.str _), h => nomatch h
  | some (.num _), h => nomatch h
  | some (.sem _), h => nomatch h
  | some (.natNum _), h => nomatch h
  | some (.obj _), h => nomatch h

/-- A well-typed string field decodes. -/
theorem getJsonStr_of_wellTyped :
    ∀ x, fieldIsStrOrAbsent x = true → ∃ v, getJsonStr x = .ok v
  | none, _ => ⟨_, rfl⟩
  | some .null, _ => ⟨_, rfl⟩
  | some (.str v), _ => ⟨v, rfl⟩
  | some (.num _), h => nomatch h
  | some (.sem _), h => nomatch h
  | some (.hashVal _), h => nomatch h
  | some (.natNum _), h => nomatch h
  | some (.obj _), h => nomatch h

/-- A well-typed decimal field decodes. -/
theorem getJsonDec_of_wellTyped :
    ∀ x, fieldIsNumOrAbsent x = true → ∃ v, getJsonDec x = .ok v
  | none, _ => ⟨_, rfl⟩
  | some .null, _ => ⟨_, rfl⟩
  | some (.num v), _ => ⟨some v, rfl⟩
  | some (.str _), h => nomatch h
  | some (.sem _), h => nomatch h
  | some (.hashVal _), h => nomatch h
  | some (.natNum _), h => nomatch h
  | some (.obj _), h => nomatch h

/-- A well-typed unsigned-integer field decodes. -/
theorem getJsonNat_of_wellTyped :
    ∀ x, fieldIsNatOrAbsent x = true → ∃ v, getJsonNat x = .ok v
  | none, _ => ⟨_, rfl⟩
  | some .null, _ => ⟨_, rfl⟩
  | some (.natNum v), _ => ⟨v, rfl⟩
  | some (.str _), h => nomatch h
  | some (.num _), h => nomatch h
  | some (.sem _), h => nomatch h
  | some (.hashVal _), h => nomatch h
  | some (.obj _), h => nomatch h

/-- Well-typed offer fields always decode to some offer. -/
theorem unmarshalOfferFields_wellTyped (fs : List (String × Json))
    (hwt : wellTypedOfferFields fs = true) :
    ∃ o, unmarshalOfferFields (Json.obj fs) = .ok o := by
  unfold wellTypedOfferFields at hwt
  simp only [Bool.and_eq_true] at hwt
  obtain ⟨⟨⟨⟨⟨⟨⟨h1, h2⟩, h3⟩, h4⟩, h5⟩, h6⟩, h7⟩, h8⟩ := hwt
  obtain ⟨v, hv⟩ := getJsonSem_of_wellTyped _ h1
  obtain ⟨idv, hid⟩ := getJsonHash_of_wellTyped _ h2
  obtain ⟨pr, hpr⟩ := getJsonStr_of_wellTyped _ h3
  obtain ⟨mn, hmn⟩ := getJsonDec_of_wellTyped _ h4
  obtain ⟨mx, hmx⟩ := getJsonDec_of_wellTyped _ h5
  obtain ⟨ex, hex⟩ := getJsonDec_of_wellTyped _ h6
  obtain ⟨ea, hea⟩ := getJsonNat_of_wellTyped _ h7
  obtain ⟨no, hno⟩ := getJsonNat_of_wellTyped _ h8
  refine ⟨⟨v, idv, pr, mn, mx, ex, ea, no⟩, ?_⟩
  simp only [unmarshalOfferFields]
  rw [hv, hid, hpr, hmn, hmx, hex, hea, hno]
  rfl

/-- Lemma: `validatePositive` fails only with the invalid-amount error. -/
theorem validatePositive_error (m : Nat) (x : Option Dec) (e : OfferError)
    (h : validatePositive m x = .error e) : e = .amountInvalid := by
  cases x with
  | none =>
    unfold validatePositive at h
    injection h with h2
    exact h2.symm
  | some d =>
    simp only [validatePositive] at h
    by_cases h1 : d.coeff ≤ 0
    · rw [if_pos h1] at h
      injection h with h2
      exact h2.symm
    · rw [if_neg h1] at h
      by_cases hd : m < d.numDecimalPlaces
      · rw [if_pos hd] at h
        injection h with h2
        exact h2.symm
      · rw [if_neg hd] at h
        cases h

/-- Lemma: `Offer.validate` fails only with one of the five listed field-validation
errors. -/
theorem validate_error_range (sha3 : String → Hash) (o : Offer) (e : OfferError)
    (h : o.validate sha3 = .error e) :
    e = .idNotSet ∨ e = .amountInvalid ∨ e = .minGreaterThanMax ∨
    e = .exchangeRateNil ∨ e = .hashMismatch := by
  unfold Offer.validate at h
  split at h
  · injection h with h2
    exact .inl h2.symm
  · split at h
    · rename_i e2 he2
      injection h with h2
      subst h2
      exact .inr (.inl (validatePositive_error _ _ _ he2))
    · split at h
      · rename_i e2 he2
        injection h with h2
        subst h2
        exact .inr (.inl (validatePositive_error _ _ _ he2))
      · split at h
        · injection h with h2
          exact .inr (.inr (.inl h2.symm))
        · split at h
          · injection h with h2
            exact .inr (.inr (.inr (.inl h2.symm)))
          · split at h
            · injection h with h2
              exact .inr (.inr (.inr (.inr h2.symm)))
            · cases h

/-- C9: `UnmarshalOffer`, on a JSON object whose offer fields are well-typed:
it fails with the version-missing error exactly when the version field is
absent (or JSON `null`); it fails with the version-unsupported error exactly
when the version is strictly greater than the current supported version (an
equal version is accepted); and otherwise it either succeeds or fails with
one of: ID not set, nil / non-positive / out-of-range amount, min greater
than max, nil exchange rate, or ID differing from the hash of the fields. -/
theorem unmarshalOffer_spec (sha3 : String → Hash) (fs : List (String × Json))
    (hwt : wellTypedOfferFields fs = true) :
    (unmarshalOffer sha3 (.obj fs) = .error .versionMissing ↔
      (lookupField fs "version" = none ∨ lookupField fs "version" = some .null)) ∧
    (∀ v, lookupField fs "version" = some (.sem v) →
      (unmarshalOffer sha3 (.obj fs) = .error .versionUnsupported ↔
        v.greaterThan curOfferVersion = true)) ∧
    (∀ v, lookupField fs "version" = some (.sem v) →
      v.greaterThan curOfferVersion = false →
      (∃ o, unmarshalOffer sha3 (.obj fs) = .ok o) ∨
      (∃ e, unmarshalOffer sha3 (.obj fs) = .error e ∧
        (e = .idNotSet ∨ e = .amountInvalid ∨ e = .minGreaterThanMax ∨
         e = .exchangeRateNil ∨ e = .hashMismatch))) := by
  obtain ⟨o, ho⟩ := unmarshalOfferFields_wellTyped fs hwt
  have h1 : fieldIsSemOrAbsent (lookupField fs "version") = true := by
    unfold wellTypedOfferFields at hwt
    simp only [Bool.and_eq_true] at hwt
    exact hwt.1.1.1.1.1.1.1
  cases hver : lookupField fs "version" with
  | none =>
    have hres : unmarshalOffer sha3 (.obj fs) = .error .versionMissing := by
      simp only [unmarshalOffer]
      rw [hver]
    refine ⟨by simp [hres], ?_, ?_⟩
    · intro v hv2
      cases hv2
    · intro v hv2
      cases hv2
  | some j =>
    cases j with
    | null =>
      have hres : unmarshalOffer sha3 (.obj fs) = .error .versionMissing := by
        simp only [unmarshalOffer]
        rw [hver]
      refine ⟨by simp [hres], ?_, ?_⟩
      · intro v hv2
        cases hv2
      · intro v hv2
        cases hv2
    | sem v0 =>
      by_cases hgt : v0.greaterThan curOfferVersion = true
      · have hres : unmarshalOffer sha3 (.obj fs) = .error .versionUnsupported := by
          simp only [unmarshalOffer]
          rw [hver]
          simp [hgt]
        refine ⟨by simp [hres], ?_, ?_⟩
        · intro v hv2
          injection hv2 with hj
          injection hj with hv3
          subst hv3
          simp [hres, hgt]
        · intro v hv2 hngt
          injection hv2 with hj
          injection hj with hv3
          subst hv3
          rw [hgt] at hngt
          cases hngt
      · have hres : unmarshalOffer sha3 (.obj fs) =
            Offer.unmarshalJson sha3 (.obj fs) := by
          simp only [unmarshalOffer]
          rw [hver]
          simp [hgt]
        cases hvalr : o.validate sha3 with
        | ok u =>
          cases u
          have hj : Offer.unmarshalJson sha3 (.obj fs) = .ok o := by
            simp only [Offer.unmarshalJson]
            rw [ho]
            simp [hvalr]
          rw [hj] at hres
          refine ⟨by simp [hres], ?_, ?_⟩
          · intro v hv2
            injection hv2 with hj2
            injection hj2 with hv3
            subst hv3
            simp [hres, hgt]
          · intro v hv2 hngt
            exact .inl ⟨o, hres⟩
        | error e =>
          have he := validate_error_range sha3 o e hvalr
          have hj : Offer.unmarshalJson sha3 (.obj fs) = .error e := by
            simp only [Offer.unmarshalJson]
            rw [ho]
            simp [hvalr]
          rw [hj] at hres
          have hnm : e ≠ .versionMissing := by
            rcases he with h | h | h | h | h <;> subst h <;> simp
          have hnu : e ≠ .versionUnsupported := by
            rcases he with h | h | h | h | h <;> subst h <;> simp
          refine ⟨by simp [hres, hnm], ?_, ?_⟩
          · intro v hv2
            injection hv2 with hj2
            injection hj2 with hv3
            subst hv3
            simp [hres, hgt, hnu]
          · intro v hv2 hngt
            exact .inr ⟨e, hres, he⟩
    | str s =>
      rw [hver] at h1
      simp [fieldIsSemOrAbsent] at h1
    | num d =>
      rw [hver] at h1
      simp [fieldIsSemOrAbsent] at h1
    | hashVal h =>
      rw [hver] at h1
      simp [fieldIsSemOrAbsent] at h1
    | natNum n =>
      rw [hver] at h1
      simp [fieldIsSemOrAbsent] at h1
    | obj fs2 =>
      rw [hver] at h1
      simp [fieldIsSemOrAbsent] at h1

/-- Witness for C9: the empty object is missing its version; a version-2
offer is unsupported; a version-1 object with no other fields reaches field
validation and fails with the ID-not-set error. -/
theorem unmarshalOffer_spec_witness :
    unmarshalOffer sampleSha3 (.obj []) = .error .versionMissing ∧
    unmarshalOffer sampleSha3 (.obj [("version", .sem ⟨2, 0, 0⟩)]) =
      .error .versionUnsupported ∧
    (∃ e, unmarshalOffer sampleSha3 (.obj [("version", .sem ⟨1, 0, 0⟩)]) =
      .error e ∧
      (e = .idNotSet ∨ e = .amountInvalid ∨ e = .minGreaterThanMax ∨
       e = .exchangeRateNil ∨ e = .hashMismatch)) := by
  refine ⟨?_, ?_, ?_⟩
  · exact (unmarshalOffer_spec sampleSha3 [] (by decide)).1.mpr (Or.inl rfl)
  · exact ((unmarshalOffer_spec sampleSha3 [("version", .sem ⟨2, 0, 0⟩)]
      (by decide)).2.1 ⟨2, 0, 0⟩ rfl).mpr (by decide)
  · have h := (unmarshalOffer_spec sampleSha3 [("version", .sem ⟨1, 0, 0⟩)]
      (by decide)).2.2 ⟨1, 0, 0⟩ rfl (by decide)
    rcases h with ⟨o2, ho2⟩ | he
    · have hc : unmarshalOffer sampleSha3 (.obj [("version", .sem ⟨1, 0, 0⟩)]) =
          .error .idNotSet := by decide
      rw [hc] at ho2
      cases ho2
    · exact he

end AtomicSwap
